import Mathlib

/-!
# Verification of the sp1-dkim guest program

A shallow embedding of `src/sp1-dkim/program/src/main.rs` and proofs about
its committed public output sequence.

The program reads four inputs (sender domain, raw email bytes, public key
type tag, public key bytes), commits the SHA-256 fingerprints of the domain
and of the key bytes, runs DKIM verification through external collaborator
crates (`mailparse`, `cfdkim`), commits the boolean `summary == "pass"`, and
finally runs one fixed regular expression over the lossily UTF-8 decoded
email bytes, committing up to three captured fields.

The external collaborators (mail parsing, key materialization, the DKIM
cryptographic check) are modelled as oracle parameters: the program only
observes whether they succeed and, for the verifier, the summary string.
SHA-256, UTF-8 encoding/lossy decoding and the regular-expression engine
are embedded concretely, since the claims depend on their exact behaviour.
-/

/-! ## SHA-256 (FIPS 180-4) over byte lists, words as `Nat` mod 2^32 -/

/-- Truncate to a 32-bit word. -/
def w32 (n : Nat) : Nat := n % 4294967296

/-- Right-rotation of a 32-bit word by `n` bits. -/
def rotr (n x : Nat) : Nat := w32 ((x >>> n) ||| (x <<< (32 - n)))

def ch32 (e f g : Nat) : Nat := (e &&& f) ^^^ ((e ^^^ 4294967295) &&& g)

def maj32 (a b c : Nat) : Nat := (a &&& b) ^^^ (a &&& c) ^^^ (b &&& c)

def bigSigma0 (x : Nat) : Nat := rotr 2 x ^^^ rotr 13 x ^^^ rotr 22 x

def bigSigma1 (x : Nat) : Nat := rotr 6 x ^^^ rotr 11 x ^^^ rotr 25 x

def smallSigma0 (x : Nat) : Nat := rotr 7 x ^^^ rotr 18 x ^^^ (x >>> 3)

def smallSigma1 (x : Nat) : Nat := rotr 17 x ^^^ rotr 19 x ^^^ (x >>> 10)

/-- The 64 SHA-256 round constants (FIPS 180-4 section 4.2.2, the first
32 bits of the fractional parts of the cube roots of the first 64 primes),
in decimal. -/
def K256 : List Nat :=
  [1116352408, 1899447441, 3049323471, 3921009573, 961987163,
   1508970993, 2453635748, 2870763221, 3624381080, 310598401,
   607225278, 1426881987, 1925078388, 2162078206, 2614888103,
   3248222580, 3835390401, 4022224774, 264347078, 604807628,
   770255983, 1249150122, 1555081692, 1996064986, 2554220882,
   2821834349, 2952996808, 3210313671, 3336571891, 3584528711,
   113926993, 338241895, 666307205, 773529912, 1294757372,
   1396182291, 1695183700, 1986661051, 2177026350, 2456956037,
   2730485921, 2820302411, 3259730800, 3345764771, 3516065817,
   3600352804, 4094571909, 275423344, 430227734, 506948616,
   659060556, 883997877, 958139571, 1322822218, 1537002063,
   1747873779, 1955562222, 2024104815, 2227730452, 2361852424,
   2428436474, 2756734187, 3204031479, 3329325298]

/-- The SHA-256 initial hash state (FIPS 180-4 section 5.3.3), in
decimal. -/
def H256 : List Nat :=
  [1779033703, 3144134277, 1013904242, 2773480762,
   1359893119, 2600822924, 528734635, 1541459225]

/-- The length field of the padding: 64-bit big-endian byte encoding. -/
def be64 (n : Nat) : List Nat :=
  [n >>> 56 &&& 255, n >>> 48 &&& 255, n >>> 40 &&& 255, n >>> 32 &&& 255,
   n >>> 24 &&& 255, n >>> 16 &&& 255, n >>> 8 &&& 255, n &&& 255]

/-- SHA-256 message padding: `0x80`, zeros to 56 mod 64, then the bit length. -/
def padMsg (ms : List Nat) : List Nat :=
  ms ++ 0x80 :: List.replicate ((64 - (ms.length + 9) % 64) % 64) 0
     ++ be64 (ms.length * 8)

/-- Pack bytes into 32-bit big-endian words. -/
def toWords : List Nat → List Nat
  | a :: b :: c :: d :: rest => (((a * 256 + b) * 256 + c) * 256 + d) :: toWords rest
  | _ => []

/-- Message-schedule extension step, on the reversed word list. -/
def schedExt : Nat → List Nat → List Nat
  | 0, rws => rws
  | n + 1, rws =>
      schedExt n (w32 (smallSigma1 (rws.getD 1 0) + rws.getD 6 0 +
                       smallSigma0 (rws.getD 14 0) + rws.getD 15 0) :: rws)

/-- The 64-entry message schedule of one 16-word block. -/
def schedule (blk : List Nat) : List Nat := (schedExt 48 blk.reverse).reverse

/-- One SHA-256 compression round on the 8-word working state. -/
def round256 (st : List Nat) (kw : Nat × Nat) : List Nat :=
  match st with
  | [a, b, c, d, e, f, g, h] =>
      let t1 := w32 (h + bigSigma1 e + ch32 e f g + kw.1 + kw.2)
      let t2 := w32 (bigSigma0 a + maj32 a b c)
      [w32 (t1 + t2), a, b, c, w32 (d + t1), e, f, g]
  | other => other

/-- Fold the compression function over the padded message's 16-word blocks.
A padded message always packs into a multiple of 16 words, so the catch-all
for a short trailing chunk is never reached from `sha256`. -/
def sha256Blocks (H : List Nat) (ws : List Nat) : List Nat :=
  match ws with
  | w0 :: w1 :: w2 :: w3 :: w4 :: w5 :: w6 :: w7 ::
    w8 :: w9 :: w10 :: w11 :: w12 :: w13 :: w14 :: w15 :: rest =>
      let blk := [w0, w1, w2, w3, w4, w5, w6, w7, w8, w9, w10, w11, w12, w13, w14, w15]
      let st := (K256.zip (schedule blk)).foldl round256 H
      sha256Blocks (List.zipWith (fun x y => w32 (x + y)) H st) rest
  | _ => H

/-- The 32 digest bytes of the 8-word final state, big-endian per word. -/
def wordsToBytes (ws : List Nat) : List Nat :=
  ws.flatMap fun w => [w >>> 24 &&& 255, w >>> 16 &&& 255, w >>> 8 &&& 255, w &&& 255]

/-- SHA-256 of a byte sequence, as its 32 digest bytes.
Embeds the `sha2::Sha256` hashing done by the program. -/
def sha256 (ms : List Nat) : List Nat :=
  wordsToBytes (sha256Blocks H256 (toWords (padMsg ms)))

/-! ## UTF-8: encoding (for `as_bytes`) and lossy decoding (`from_utf8_lossy`) -/

/-- UTF-8 encoding of one scalar value. -/
def utf8EncodeChar (c : Char) : List Nat :=
  let n := c.toNat
  if n < 0x80 then [n]
  else if n < 0x800 then [0xC0 ||| (n >>> 6), 0x80 ||| (n &&& 0x3F)]
  else if n < 0x10000 then
    [0xE0 ||| (n >>> 12), 0x80 ||| ((n >>> 6) &&& 0x3F), 0x80 ||| (n &&& 0x3F)]
  else
    [0xF0 ||| (n >>> 18), 0x80 ||| ((n >>> 12) &&& 0x3F),
     0x80 ||| ((n >>> 6) &&& 0x3F), 0x80 ||| (n &&& 0x3F)]

/-- The UTF-8 bytes of a string: `str.as_bytes()`. -/
def strBytes (s : String) : List Nat := s.data.flatMap utf8EncodeChar

/-- A UTF-8 continuation byte. -/
def isCont (b : Nat) : Bool := 0x80 ≤ b && b ≤ 0xBF

/-- Admissible first continuation byte after a 3-byte leader: `0xE0` forbids
overlong forms, `0xED` forbids surrogates. -/
def isCont3 (b b1 : Nat) : Bool :=
  if b == 0xE0 then 0xA0 ≤ b1 && b1 ≤ 0xBF
  else if b == 0xED then 0x80 ≤ b1 && b1 ≤ 0x9F
  else isCont b1

/-- Admissible first continuation byte after a 4-byte leader: `0xF0` forbids
overlong forms, `0xF4` caps at U+10FFFF. -/
def isCont4 (b b1 : Nat) : Bool :=
  if b == 0xF0 then 0x90 ≤ b1 && b1 ≤ 0xBF
  else if b == 0xF4 then 0x80 ≤ b1 && b1 ≤ 0x8F
  else isCont b1

/-- The replacement character emitted for invalid sequences. -/
def replChar : Char := Char.ofNat 0xFFFD

/-- Decode one scalar (or one maximal invalid subpart, as U+FFFD) from a
first byte `b` and the remaining bytes, returning the decoded character and
the bytes left over. -/
def utf8Step (b : Nat) (rest : List Nat) : Char × List Nat :=
  if b < 0x80 then (Char.ofNat b, rest)
  else if 0xC2 ≤ b && b ≤ 0xDF then
    match rest with
    | [] => (replChar, [])
    | b1 :: rest1 =>
      if isCont b1 then (Char.ofNat (((b - 0xC0) <<< 6) + (b1 - 0x80)), rest1)
      else (replChar, rest)
  else if 0xE0 ≤ b && b ≤ 0xEF then
    match rest with
    | [] => (replChar, [])
    | b1 :: rest1 =>
      if isCont3 b b1 then
        match rest1 with
        | [] => (replChar, [])
        | b2 :: rest2 =>
          if isCont b2 then
            (Char.ofNat (((b - 0xE0) <<< 12) + ((b1 - 0x80) <<< 6) + (b2 - 0x80)), rest2)
          else (replChar, rest1)
      else (replChar, rest)
  else if 0xF0 ≤ b && b ≤ 0xF4 then
    match rest with
    | [] => (replChar, [])
    | b1 :: rest1 =>
      if isCont4 b b1 then
        match rest1 with
        | [] => (replChar, [])
        | b2 :: rest2 =>
          if isCont b2 then
            match rest2 with
            | [] => (replChar, [])
            | b3 :: rest3 =>
              if isCont b3 then
                (Char.ofNat (((b - 0xF0) <<< 18) + ((b1 - 0x80) <<< 12) +
                             ((b2 - 0x80) <<< 6) + (b3 - 0x80)), rest3)
              else (replChar, rest2)
          else (replChar, rest1)
      else (replChar, rest)
  else (replChar, rest)

/-- Decoding loop: `fuel` bounds the number of characters produced. Every
step consumes at least one byte, so fuel equal to the byte count never runs
out. -/
def utf8LossyGo : Nat → List Nat → List Char
  | 0, _ => []
  | _ + 1, [] => []
  | f + 1, b :: rest => (utf8Step b rest).1 :: utf8LossyGo f (utf8Step b rest).2

/-- Lossy UTF-8 decoding of a byte sequence, as Rust's
`String::from_utf8_lossy`: each maximal invalid subpart becomes one
U+FFFD replacement character. -/
def utf8Lossy (l : List Nat) : List Char := utf8LossyGo l.length l

/-! ## The regular-expression engine

The source builds one `regex::Regex` and calls `captures`. The regex crate
uses leftmost-first (preference-order) match semantics: the match starts at
the earliest possible position, greedy quantifiers prefer more repetitions,
lazy ones fewer, and earlier subexpressions' preferences dominate later
ones. We embed exactly the constructs the source pattern uses. -/

/-- The capture environment: group index paired with the captured characters,
most recently written first (a later write to the same group shadows an
earlier one, as in the source engine). -/
abbrev Caps := List (Nat × List Char)

/-- Regular expressions: the constructs appearing in the source pattern.
`cls` is a single-character class, `starG`/`starL` greedy and lazy `*`,
`optG` greedy `?`, `group` a numbered capture group. -/
inductive RE where
  | eps
  | cls (p : Char → Bool)
  | cat (a b : RE)
  | starG (r : RE)
  | starL (r : RE)
  | optG (r : RE)
  | group (i : Nat) (r : RE)

/-- The node count of a regular expression, used to size the matcher's
fuel. -/
def reSize : RE → Nat
  | .eps => 1
  | .cls _ => 1
  | .cat a b => reSize a + reSize b + 1
  | .starG r => reSize r + 1
  | .starL r => reSize r + 1
  | .optG r => reSize r + 1
  | .group _ r => reSize r + 1

/-- Backtracking matcher in preference order, in continuation-passing style:
the first success wins. Greedy star tries one more iteration before
stopping, lazy star stops before iterating; earlier subexpressions'
preferences dominate later ones, as in the regex crate. A star iteration
must consume input (the engine's empty-subexpression rule; every starred
subexpression of the source pattern consumes a character per iteration
anyway). `fuel` decreases one level per subexpression descent and one per
star iteration, so fuel exceeding the expression size plus the input
length never runs out. -/
def reRun : Nat → RE → List Char → Caps → (List Char → Caps → Option Caps) →
    Option Caps
  | 0, _, _, _, _ => none
  | f + 1, re, s, cp, k =>
    match re with
    | .eps => k s cp
    | .cls p =>
      match s with
      | [] => none
      | c :: rest => if p c then k rest cp else none
    | .cat a b => reRun f a s cp (fun s1 cp1 => reRun f b s1 cp1 k)
    | .optG r => (reRun f r s cp k) <|> k s cp
    | .group i r =>
        reRun f r s cp (fun s1 cp1 => k s1 ((i, s.take (s.length - s1.length)) :: cp1))
    | .starG r =>
        (reRun f r s cp (fun s1 cp1 =>
          if s1.length < s.length then reRun f (.starG r) s1 cp1 k else none)) <|> k s cp
    | .starL r =>
        k s cp <|> (reRun f r s cp (fun s1 cp1 =>
          if s1.length < s.length then reRun f (.starL r) s1 cp1 k else none))

/-- Try a match at each start position, earliest first: the capture
environment of the leftmost-first match. -/
def reSearch (fuel : Nat) (re : RE) (s : List Char) : Option Caps :=
  (reRun fuel re s [] (fun _ cp => some cp)) <|>
    (match s with
     | [] => none
     | _ :: rest => reSearch fuel re rest)

/-- `Regex::captures` over a character sequence, with ample fuel. -/
def regexCaptures (re : RE) (s : List Char) : Option Caps :=
  reSearch ((reSize re + 2) * (s.length + 2)) re s

/-! ## The source pattern
`Paid to\s*:\s*(.+?)\s*.*?₹\s*(\d+(?:\.\d{2})?).*?Debited from\s*:\s*([A-Z0-9]+)` -/

/-- A literal character. -/
def chrRE (c : Char) : RE := .cls (fun x => x == c)

/-- A literal character sequence. -/
def litRE (cs : List Char) : RE := cs.foldr (fun c r => .cat (chrRE c) r) .eps

/-- Right-nested concatenation of a sequence of pieces. -/
def catRE (rs : List RE) : RE := rs.foldr .cat .eps

/-- Greedy `+`: one occurrence then a greedy star. -/
def plusG (r : RE) : RE := .cat r (.starG r)

/-- Lazy `+?`: one occurrence then a lazy star. -/
def plusL (r : RE) : RE := .cat r (.starL r)

/-- `\s` (Unicode `White_Space`, the regex crate's default). -/
def isSpaceRe (c : Char) : Bool :=
  (9 ≤ c.toNat && c.toNat ≤ 13) || c.toNat == 32 || c.toNat == 0x85 ||
  c.toNat == 0xA0 || c.toNat == 0x1680 ||
  (0x2000 ≤ c.toNat && c.toNat ≤ 0x200A) || c.toNat == 0x2028 ||
  c.toNat == 0x2029 || c.toNat == 0x202F || c.toNat == 0x205F || c.toNat == 0x3000

/-- `.` without dot-all: anything but a newline. -/
def isDotRe (c : Char) : Bool := c != '\n'

/-- The code-point ranges of the Unicode `Nd` (decimal number) category,
Unicode 15.0 — the version the regex crate bundles. -/
def ndRanges : List (Nat × Nat) :=
  [(0x30, 0x39), (0x660, 0x669), (0x6F0, 0x6F9), (0x7C0, 0x7C9),
   (0x966, 0x96F), (0x9E6, 0x9EF), (0xA66, 0xA6F), (0xAE6, 0xAEF),
   (0xB66, 0xB6F), (0xBE6, 0xBEF), (0xC66, 0xC6F), (0xCE6, 0xCEF),
   (0xD66, 0xD6F), (0xDE6, 0xDEF), (0xE50, 0xE59), (0xED0, 0xED9),
   (0xF20, 0xF29), (0x1040, 0x1049), (0x1090, 0x1099), (0x17E0, 0x17E9),
   (0x1810, 0x1819), (0x1946, 0x194F), (0x19D0, 0x19D9), (0x1A80, 0x1A89),
   (0x1A90, 0x1A99), (0x1B50, 0x1B59), (0x1BB0, 0x1BB9), (0x1C40, 0x1C49),
   (0x1C50, 0x1C59), (0xA620, 0xA629), (0xA8D0, 0xA8D9), (0xA900, 0xA909),
   (0xA9D0, 0xA9D9), (0xA9F0, 0xA9F9), (0xAA50, 0xAA59), (0xABF0, 0xABF9),
   (0xFF10, 0xFF19), (0x104A0, 0x104A9), (0x10D30, 0x10D39),
   (0x11066, 0x1106F), (0x110F0, 0x110F9), (0x11136, 0x1113F),
   (0x111D0, 0x111D9), (0x112F0, 0x112F9), (0x11450, 0x11459),
   (0x114D0, 0x114D9), (0x11650, 0x11659), (0x116C0, 0x116C9),
   (0x11730, 0x11739), (0x118E0, 0x118E9), (0x11950, 0x11959),
   (0x11C50, 0x11C59), (0x11D50, 0x11D59), (0x11DA0, 0x11DA9),
   (0x11F50, 0x11F59), (0x16A60, 0x16A69), (0x16AC0, 0x16AC9),
   (0x16B50, 0x16B59), (0x1D7CE, 0x1D7FF), (0x1E140, 0x1E149),
   (0x1E2F0, 0x1E2F9), (0x1E4F0, 0x1E4F9), (0x1E950, 0x1E959),
   (0x1FBF0, 0x1FBF9)]

/-- `\d`: the full Unicode `Nd` category, the regex crate's default. -/
def isDigitRe (c : Char) : Bool :=
  ndRanges.any (fun r => r.1 ≤ c.toNat && c.toNat ≤ r.2)

/-- The `[A-Z0-9]` class. -/
def isAcctRe (c : Char) : Bool :=
  ('A' ≤ c && c ≤ 'Z') || ('0' ≤ c && c ≤ '9')

/-- The extraction pattern of the source, with the crate's group numbering
(capturing groups numbered by opening parenthesis; `(?:` unnumbered). -/
def payRegex : RE := catRE
  [litRE "Paid to".data, .starG (.cls isSpaceRe), chrRE ':', .starG (.cls isSpaceRe),
   .group 1 (plusL (.cls isDotRe)), .starG (.cls isSpaceRe), .starL (.cls isDotRe),
   chrRE '₹', .starG (.cls isSpaceRe),
   .group 2 (catRE [plusG (.cls isDigitRe),
                    .optG (catRE [chrRE '.', .cls isDigitRe, .cls isDigitRe])]),
   .starL (.cls isDotRe), litRE "Debited from".data, .starG (.cls isSpaceRe),
   chrRE ':', .starG (.cls isSpaceRe), .group 3 (plusG (.cls isAcctRe))]

/-- `captures.get(i).map_or("", |m| m.as_str())`: the text of group `i`, or
the empty string if the group did not participate in the match. -/
def capStr (cp : Caps) (i : Nat) : List Char :=
  match cp.find? (fun e => e.1 == i) with
  | some e => e.2
  | none => []

/-! ## The program -/

/-- One value committed to the public output channel: `commit_slice` of a
hash digest, `commit` of a boolean, or `commit` of an extracted string. -/
inductive OutVal where
  | bytes (bs : List Nat)
  | bool (b : Bool)
  | str (s : List Char)
  deriving DecidableEq, Repr

/-- The external collaborator crates, as oracles over abstract types: the
program only observes whether `parse_mail` and
`verify_email_with_public_key` succeed (it calls `.unwrap()` on each,
modelled as `Option`), and the `summary()` string of the verifier's result.
`DkimPublicKey::from_vec_with_type` is called without `.unwrap()`. -/
structure Collab (Mail Key R : Type) where
  parse_mail : List Nat → Option Mail
  from_vec_with_type : List Nat → String → Key
  verify_email_with_public_key : String → Mail → Key → Option R
  summary : R → String

/-- The four values read from the input channel, in read order. -/
structure RawInput where
  from_domain : String
  raw_email : List Nat
  public_key_type : String
  public_key_vec : List Nat
  deriving DecidableEq

/-- The guest program `main` of `src/sp1-dkim/program/src/main.rs`: the
sequence of values it commits to the public output channel. A failed
`.unwrap()` terminates the run, committing nothing further. -/
def payMain {Mail Key R : Type} (ext : Collab Mail Key R) (inp : RawInput) :
    List OutVal :=
  match ext.parse_mail inp.raw_email with
  | none => []
  | some email =>
    let public_key := ext.from_vec_with_type inp.public_key_vec inp.public_key_type
    let public_key_hash := sha256 inp.public_key_vec
    let from_domain_hash := sha256 (strBytes inp.from_domain)
    let fingerprints := [OutVal.bytes from_domain_hash, OutVal.bytes public_key_hash]
    match ext.verify_email_with_public_key inp.from_domain email public_key with
    | none => fingerprints
    | some result =>
      let is_verified := ext.summary result == "pass"
      let withBool := fingerprints ++ [OutVal.bool is_verified]
      let email_body := utf8Lossy inp.raw_email
      match regexCaptures payRegex email_body with
      | none => withBool
      | some captures =>
        withBool ++ [OutVal.str (capStr captures 1), OutVal.str (capStr captures 2),
                     OutVal.str (capStr captures 3)]

/-! ## Concrete instantiations used as witnesses -/

/-- A collaborator instance whose parse and verify calls both succeed and
whose verifier summary is the canonical pass value. -/
def trivCollab : Collab Unit Unit Unit where
  parse_mail := fun _ => some ()
  from_vec_with_type := fun _ _ => ()
  verify_email_with_public_key := fun _ _ _ => some ()
  summary := fun _ => "pass"

/-- A collaborator instance whose mail parsing fails on every input. -/
def noParseCollab : Collab Unit Unit Unit where
  parse_mail := fun _ => none
  from_vec_with_type := fun _ _ => ()
  verify_email_with_public_key := fun _ _ _ => some ()
  summary := fun _ => "pass"

/-- A collaborator instance whose verifier invocation errors unless the
claimed domain is `"a"`. -/
def domCollab : Collab Unit Unit Unit where
  parse_mail := fun _ => some ()
  from_vec_with_type := fun _ _ => ()
  verify_email_with_public_key := fun d _ _ => if d == "a" then some () else none
  summary := fun _ => "pass"

/-- A collaborator instance whose verifier summary is not the pass value. -/
def failCollab : Collab Unit Unit Unit where
  parse_mail := fun _ => some ()
  from_vec_with_type := fun _ _ => ()
  verify_email_with_public_key := fun _ _ _ => some ()
  summary := fun _ => "fail (body hash did not verify)"

/-- The golden body text named by the specification. -/
def bodyGolden : String := "Paid to : Jane Doe ... ₹100.00 ... Debited from : ABC123"

/-- A short body the extraction pattern matches. -/
def bodyShort : String := "Paid to:J₹1Debited from:A"

/-- An input with an empty email, which the pattern cannot match. -/
def inpEmpty : RawInput :=
  { from_domain := "example.com", raw_email := [], public_key_type := "rsa",
    public_key_vec := [1, 2, 3] }

/-- An input carrying the golden body as its raw email. -/
def inpGolden : RawInput :=
  { from_domain := "d", raw_email := strBytes bodyGolden, public_key_type := "t",
    public_key_vec := [7] }

/-- An input carrying the short matching body. -/
def inpShort : RawInput :=
  { from_domain := "a", raw_email := strBytes bodyShort, public_key_type := "t",
    public_key_vec := [7] }

/-- The short matching body under a different domain, key type and key. -/
def inpShortB : RawInput :=
  { from_domain := "b", raw_email := strBytes bodyShort, public_key_type := "u",
    public_key_vec := [9] }

/-! ## A declarative semantics for the engine, for the reachability proofs -/

/-- One way a regular expression can match: `Matches re s cp s1 cp1` says
`re` can consume a prefix of `s` leaving `s1`, turning capture environment
`cp` into `cp1`. Star iterations consume input, as in `reRun`. Every
success of `reRun` is one of these derivations. -/
inductive Matches : RE → List Char → Caps → List Char → Caps → Prop where
  | eps {s cp} : Matches .eps s cp s cp
  | cls {p c rest cp} : p c = true → Matches (.cls p) (c :: rest) cp rest cp
  | cat {a b s cp s1 cp1 s2 cp2} : Matches a s cp s1 cp1 →
      Matches b s1 cp1 s2 cp2 → Matches (.cat a b) s cp s2 cp2
  | optSome {r s cp s1 cp1} : Matches r s cp s1 cp1 → Matches (.optG r) s cp s1 cp1
  | optNone {r s cp} : Matches (.optG r) s cp s cp
  | starGZero {r s cp} : Matches (.starG r) s cp s cp
  | starGMore {r s cp s1 cp1 s2 cp2} : Matches r s cp s1 cp1 →
      s1.length < s.length → Matches (.starG r) s1 cp1 s2 cp2 →
      Matches (.starG r) s cp s2 cp2
  | starLZero {r s cp} : Matches (.starL r) s cp s cp
  | starLMore {r s cp s1 cp1 s2 cp2} : Matches r s cp s1 cp1 →
      s1.length < s.length → Matches (.starL r) s1 cp1 s2 cp2 →
      Matches (.starL r) s cp s2 cp2
  | group {i r s cp s1 cp1} : Matches r s cp s1 cp1 →
      Matches (.group i r) s cp s1 ((i, s.take (s.length - s1.length)) :: cp1)

/-- A regular expression containing no capture group. -/
def hasNoGroup : RE → Bool
  | .eps => true
  | .cls _ => true
  | .cat a b => hasNoGroup a && hasNoGroup b
  | .starG r => hasNoGroup r
  | .starL r => hasNoGroup r
  | .optG r => hasNoGroup r
  | .group _ _ => false

/-- A regular expression every match of which consumes at least one
character. -/
def consumes1 : RE → Bool
  | .eps => false
  | .cls _ => true
  | .cat a b => consumes1 a || consumes1 b
  | .starG _ => false
  | .starL _ => false
  | .optG _ => false
  | .group _ r => consumes1 r

/-! ## Theorems: semantics of the engine -/

/-- A match never lengthens the remaining input. -/
theorem Matches_length_le {re : RE} {s : List Char} {cp : Caps} {s1 : List Char}
    {cp1 : Caps} (h : Matches re s cp s1 cp1) : s1.length ≤ s.length := by
  induction h with
  | eps => exact Nat.le_refl _
  | cls _ => simp [List.length_cons]
  | cat _ _ ih1 ih2 => exact Nat.le_trans ih2 ih1
  | optSome _ ih => exact ih
  | optNone => exact Nat.le_refl _
  | starGZero => exact Nat.le_refl _
  | starGMore _ _ _ ih1 ih2 => exact Nat.le_trans ih2 (Nat.le_of_lt (by omega))
  | starLZero => exact Nat.le_refl _
  | starLMore _ _ _ ih1 ih2 => exact Nat.le_trans ih2 (Nat.le_of_lt (by omega))
  | group _ ih => exact ih

/-- A match of a groupless expression leaves the capture environment
unchanged. -/
theorem Matches_noGroup {re : RE} {s : List Char} {cp : Caps} {s1 : List Char}
    {cp1 : Caps} (h : Matches re s cp s1 cp1) :
    hasNoGroup re = true → cp1 = cp := by
  induction h with
  | eps => intro _; rfl
  | cls _ => intro _; rfl
  | cat _ _ ih1 ih2 =>
    intro hg
    simp only [hasNoGroup, Bool.and_eq_true] at hg
    exact (ih2 hg.2).trans (ih1 hg.1)
  | optSome _ ih => exact ih
  | optNone => intro _; rfl
  | starGZero => intro _; rfl
  | starGMore _ _ _ ih1 ih2 =>
    intro hg
    exact (ih2 hg).trans (ih1 hg)
  | starLZero => intro _; rfl
  | starLMore _ _ _ ih1 ih2 =>
    intro hg
    exact (ih2 hg).trans (ih1 hg)
  | group _ _ => intro hg; simp [hasNoGroup] at hg

/-- A match of an expression all of whose matches consume input consumes
input. -/
theorem Matches_consumes {re : RE} {s : List Char} {cp : Caps} {s1 : List Char}
    {cp1 : Caps} (h : Matches re s cp s1 cp1) :
    consumes1 re = true → s1.length < s.length := by
  induction h with
  | eps => intro hc; simp [consumes1] at hc
  | cls _ => intro _; simp [List.length_cons]
  | @cat a b sx cpx sy cpy sz cpz h1 h2 ih1 ih2 =>
    intro hc
    simp only [consumes1, Bool.or_eq_true] at hc
    rcases hc with hc | hc
    · exact Nat.lt_of_le_of_lt (Matches_length_le h2) (ih1 hc)
    · exact Nat.lt_of_lt_of_le (ih2 hc) (Matches_length_le h1)
  | optSome _ _ => intro hc; simp [consumes1] at hc
  | optNone => intro hc; simp [consumes1] at hc
  | starGZero => intro hc; simp [consumes1] at hc
  | starGMore _ _ _ _ _ => intro hc; simp [consumes1] at hc
  | starLZero => intro hc; simp [consumes1] at hc
  | starLMore _ _ _ _ _ => intro hc; simp [consumes1] at hc
  | group _ ih => intro hc; exact ih hc

/-- A match of a capture group over a groupless, consuming body prepends
exactly one entry, with nonempty captured text. -/
theorem Matches_group_caps {i : Nat} {r : RE} {s : List Char} {cp : Caps}
    {s1 : List Char} {cp1 : Caps} (h : Matches (.group i r) s cp s1 cp1)
    (hg : hasNoGroup r = true) (hc : consumes1 r = true) :
    cp1 = (i, s.take (s.length - s1.length)) :: cp ∧
    s.take (s.length - s1.length) ≠ [] := by
  cases h with
  | group hin =>
    have hlt := Matches_consumes hin hc
    refine ⟨by rw [Matches_noGroup hin hg], ?_⟩
    have hs : s ≠ [] := by
      intro he
      subst he
      simp at hlt
    rw [Ne, List.take_eq_nil_iff]
    push_neg
    exact ⟨by omega, hs⟩

/-- Every success of the backtracking matcher is a declarative match whose
endpoint satisfies the continuation. -/
theorem reRun_sound : ∀ (fuel : Nat) (re : RE) (s : List Char) (cp : Caps)
    (k : List Char → Caps → Option Caps) (res : Caps),
    reRun fuel re s cp k = some res →
    ∃ s1 cp1, Matches re s cp s1 cp1 ∧ k s1 cp1 = some res := by
  intro fuel
  induction fuel with
  | zero => intro re s cp k res h; simp [reRun] at h
  | succ f ih =>
    intro re s cp k res h
    cases re with
    | eps => exact ⟨s, cp, .eps, by simpa [reRun] using h⟩
    | cls p =>
      cases s with
      | nil => simp [reRun] at h
      | cons c rest =>
        by_cases hpc : p c = true
        · exact ⟨rest, cp, .cls hpc, by simpa [reRun, hpc] using h⟩
        · simp [reRun, hpc] at h
    | cat a b =>
      simp only [reRun] at h
      obtain ⟨s1, cp1, M1, h1⟩ := ih a s cp _ res h
      obtain ⟨s2, cp2, M2, h2⟩ := ih b s1 cp1 k res h1
      exact ⟨s2, cp2, .cat M1 M2, h2⟩
    | optG r =>
      simp only [reRun] at h
      cases h0 : reRun f r s cp k with
      | some v =>
        rw [h0] at h
        simp only [Option.some_orElse] at h
        obtain ⟨s1, cp1, M1, h1⟩ := ih r s cp k res (h0.trans h)
        exact ⟨s1, cp1, .optSome M1, h1⟩
      | none =>
        rw [h0] at h
        simp only [Option.none_orElse] at h
        exact ⟨s, cp, .optNone, h⟩
    | group i r =>
      simp only [reRun] at h
      obtain ⟨s1, cp1, M1, h1⟩ := ih r s cp _ res h
      exact ⟨s1, (i, s.take (s.length - s1.length)) :: cp1, .group M1, h1⟩
    | starG r =>
      simp only [reRun] at h
      cases h0 : reRun f r s cp
          (fun s1 cp1 => if s1.length < s.length then reRun f (.starG r) s1 cp1 k else none) with
      | some v =>
        rw [h0] at h
        simp only [Option.some_orElse] at h
        obtain ⟨s1, cp1, M1, h1⟩ := ih r s cp _ res (h0.trans h)
        by_cases hlt : s1.length < s.length
        · rw [if_pos hlt] at h1
          obtain ⟨s2, cp2, M2, h2⟩ := ih (.starG r) s1 cp1 k res h1
          exact ⟨s2, cp2, .starGMore M1 hlt M2, h2⟩
        · rw [if_neg hlt] at h1
          exact absurd h1 (by simp)
      | none =>
        rw [h0] at h
        simp only [Option.none_orElse] at h
        exact ⟨s, cp, .starGZero, h⟩
    | starL r =>
      simp only [reRun] at h
      cases hk : k s cp with
      | some v =>
        rw [hk] at h
        simp only [Option.some_orElse] at h
        exact ⟨s, cp, .starLZero, hk.trans h⟩
      | none =>
        rw [hk] at h
        simp only [Option.none_orElse] at h
        obtain ⟨s1, cp1, M1, h1⟩ := ih r s cp _ res h
        by_cases hlt : s1.length < s.length
        · rw [if_pos hlt] at h1
          obtain ⟨s2, cp2, M2, h2⟩ := ih (.starL r) s1 cp1 k res h1
          exact ⟨s2, cp2, .starLMore M1 hlt M2, h2⟩
        · rw [if_neg hlt] at h1
          exact absurd h1 (by simp)

/-- Every success of the leftmost search comes from a declarative match of
some suffix, starting from the empty capture environment. -/
theorem reSearch_sound (fuel : Nat) (re : RE) :
    ∀ (s : List Char) (cp : Caps), reSearch fuel re s = some cp →
    ∃ t s1, Matches re t [] s1 cp := by
  intro s
  induction s with
  | nil =>
    intro cp h
    unfold reSearch at h
    cases h0 : reRun fuel re [] [] (fun _ cp => some cp) with
    | some v =>
      rw [h0] at h
      simp only [Option.some_orElse] at h
      obtain ⟨s1, cp1, M1, h1⟩ := reRun_sound fuel re [] [] _ v h0
      exact ⟨[], s1, ((Option.some.inj h1).trans (Option.some.inj h)) ▸ M1⟩
    | none =>
      rw [h0] at h
      simp only [Option.none_orElse] at h
      exact absurd h (by simp)
  | cons c rest ih =>
    intro cp h
    unfold reSearch at h
    cases h0 : reRun fuel re (c :: rest) [] (fun _ cp => some cp) with
    | some v =>
      rw [h0] at h
      simp only [Option.some_orElse] at h
      obtain ⟨s1, cp1, M1, h1⟩ := reRun_sound fuel re (c :: rest) [] _ v h0
      exact ⟨c :: rest, s1, ((Option.some.inj h1).trans (Option.some.inj h)) ▸ M1⟩
    | none =>
      rw [h0] at h
      simp only [Option.none_orElse] at h
      exact ih cp h

/-- Walking the pattern: any declarative match of the whole pattern yields
exactly the capture environment of its three groups, each nonempty. -/
theorem payRegex_caps {s s1 : List Char} {cp : Caps}
    (h : Matches payRegex s [] s1 cp) :
    ∃ t1 t2 t3, cp = [(3, t3), (2, t2), (1, t1)] ∧
      t1 ≠ [] ∧ t2 ≠ [] ∧ t3 ≠ [] := by
  simp only [payRegex, catRE, List.foldr_cons, List.foldr_nil] at h
  cases h; rename_i sA cpA hA h
  have eA : cpA = [] := Matches_noGroup hA (by decide)
  subst eA
  cases h; rename_i sB cpB hB h
  have eB : cpB = [] := Matches_noGroup hB (by decide)
  subst eB
  cases h; rename_i sC cpC hC h
  have eC : cpC = [] := Matches_noGroup hC (by decide)
  subst eC
  cases h; rename_i sD cpD hD h
  have eD : cpD = [] := Matches_noGroup hD (by decide)
  subst eD
  cases h; rename_i sE cpE hE h
  obtain ⟨eE, ne1⟩ := Matches_group_caps hE (by decide) (by decide)
  subst eE
  cases h; rename_i sF cpF hF h
  have eF := Matches_noGroup hF (by decide)
  subst eF
  cases h; rename_i sG cpG hG h
  have eG := Matches_noGroup hG (by decide)
  subst eG
  cases h; rename_i sH cpH hH h
  have eH := Matches_noGroup hH (by decide)
  subst eH
  cases h; rename_i sI cpI hI h
  have eI := Matches_noGroup hI (by decide)
  subst eI
  cases h; rename_i sJ cpJ hJ h
  obtain ⟨eJ, ne2⟩ := Matches_group_caps hJ (by decide) (by decide)
  subst eJ
  cases h; rename_i sK cpK hK h
  have eK := Matches_noGroup hK (by decide)
  subst eK
  cases h; rename_i sL cpL hL h
  have eL := Matches_noGroup hL (by decide)
  subst eL
  cases h; rename_i sM cpM hM h
  have eM := Matches_noGroup hM (by decide)
  subst eM
  cases h; rename_i sN cpN hN h
  have eN := Matches_noGroup hN (by decide)
  subst eN
  cases h; rename_i sO cpO hO h
  have eO := Matches_noGroup hO (by decide)
  subst eO
  cases h; rename_i sP cpP hP h
  obtain ⟨eP, ne3⟩ := Matches_group_caps hP (by decide) (by decide)
  subst eP
  cases h
  exact ⟨_, _, _, rfl, ne1, ne2, ne3⟩

/-! ## Theorems: the shape of the committed output -/

/-- A mail-parse failure commits nothing. -/
theorem payMain_parse_none {Mail Key R : Type} (ext : Collab Mail Key R)
    (inp : RawInput) (hp : ext.parse_mail inp.raw_email = none) :
    payMain ext inp = [] := by
  unfold payMain
  rw [hp]

/-- A verifier invocation error commits exactly the two fingerprints,
domain hash first. -/
theorem payMain_verify_none {Mail Key R : Type} (ext : Collab Mail Key R)
    (inp : RawInput) (email : Mail)
    (hp : ext.parse_mail inp.raw_email = some email)
    (hv : ext.verify_email_with_public_key inp.from_domain email
      (ext.from_vec_with_type inp.public_key_vec inp.public_key_type) = none) :
    payMain ext inp = [OutVal.bytes (sha256 (strBytes inp.from_domain)),
                       OutVal.bytes (sha256 inp.public_key_vec)] := by
  unfold payMain
  rw [hp]
  simp only
  rw [hv]

/-- A completed run with no pattern match commits the two fingerprints and
the reduced boolean, and nothing else. -/
theorem payMain_no_match {Mail Key R : Type} (ext : Collab Mail Key R)
    (inp : RawInput) (email : Mail) (r : R)
    (hp : ext.parse_mail inp.raw_email = some email)
    (hv : ext.verify_email_with_public_key inp.from_domain email
      (ext.from_vec_with_type inp.public_key_vec inp.public_key_type) = some r)
    (hc : regexCaptures payRegex (utf8Lossy inp.raw_email) = none) :
    payMain ext inp = [OutVal.bytes (sha256 (strBytes inp.from_domain)),
                       OutVal.bytes (sha256 inp.public_key_vec),
                       OutVal.bool (ext.summary r == "pass")] := by
  unfold payMain
  rw [hp]
  simp only
  rw [hv]
  simp only
  rw [hc]
  rfl

/-- A completed run with a pattern match commits the two fingerprints, the
reduced boolean, and the three capture-group texts, in that order. -/
theorem payMain_match {Mail Key R : Type} (ext : Collab Mail Key R)
    (inp : RawInput) (email : Mail) (r : R) (cp : Caps)
    (hp : ext.parse_mail inp.raw_email = some email)
    (hv : ext.verify_email_with_public_key inp.from_domain email
      (ext.from_vec_with_type inp.public_key_vec inp.public_key_type) = some r)
    (hc : regexCaptures payRegex (utf8Lossy inp.raw_email) = some cp) :
    payMain ext inp = [OutVal.bytes (sha256 (strBytes inp.from_domain)),
                       OutVal.bytes (sha256 inp.public_key_vec),
                       OutVal.bool (ext.summary r == "pass"),
                       OutVal.str (capStr cp 1), OutVal.str (capStr cp 2),
                       OutVal.str (capStr cp 3)] := by
  unfold payMain
  rw [hp]
  simp only
  rw [hv]
  simp only
  rw [hc]
  rfl

/-! ## The claims -/

set_option maxRecDepth 100000
set_option maxHeartbeats 4000000

/-- C1 (amended): for every run that commits anything, the first two
committed values are the SHA-256 fingerprint of the UTF-8 bytes of the
claimed sender domain and then the SHA-256 fingerprint of the raw
public-key bytes — the source commits the domain hash first, not the key
hash — regardless of the verification outcome. -/
theorem C1_fingerprints {Mail Key R : Type} (ext : Collab Mail Key R)
    (inp : RawInput) (h : payMain ext inp ≠ []) :
    (payMain ext inp).take 2 =
      [OutVal.bytes (sha256 (strBytes inp.from_domain)),
       OutVal.bytes (sha256 inp.public_key_vec)] := by
  cases hp : ext.parse_mail inp.raw_email with
  | none => exact absurd (payMain_parse_none ext inp hp) h
  | some email =>
    cases hv : ext.verify_email_with_public_key inp.from_domain email
        (ext.from_vec_with_type inp.public_key_vec inp.public_key_type) with
    | none => rw [payMain_verify_none ext inp email hp hv]; rfl
    | some r =>
      cases hc : regexCaptures payRegex (utf8Lossy inp.raw_email) with
      | none => rw [payMain_no_match ext inp email r hp hv hc]; rfl
      | some cp => rw [payMain_match ext inp email r cp hp hv hc]; rfl

/-- C1 (counterexample): on a concrete committing run the first two
committed values are not key-hash-then-domain-hash, as the claim states. -/
theorem C1_fingerprints_cex :
    payMain trivCollab inpEmpty ≠ [] ∧
    (payMain trivCollab inpEmpty).take 2 ≠
      [OutVal.bytes (sha256 inpEmpty.public_key_vec),
       OutVal.bytes (sha256 (strBytes inpEmpty.from_domain))] := by
  decide

/-- C1 (witness): a concrete committing run whose first two committed
values are domain hash then key hash. -/
theorem C1_fingerprints_w :
    payMain trivCollab inpEmpty ≠ [] ∧
    (payMain trivCollab inpEmpty).take 2 =
      [OutVal.bytes (sha256 (strBytes inpEmpty.from_domain)),
       OutVal.bytes (sha256 inpEmpty.public_key_vec)] :=
  ⟨by decide, C1_fingerprints trivCollab inpEmpty (by decide)⟩

/-- C2: when the verifier invocation succeeds, the third committed value is
the boolean reduction of its summary, true exactly when the summary is the
string `pass`. -/
theorem C2_result_reducer {Mail Key R : Type} (ext : Collab Mail Key R)
    (inp : RawInput) (email : Mail) (r : R)
    (hp : ext.parse_mail inp.raw_email = some email)
    (hv : ext.verify_email_with_public_key inp.from_domain email
      (ext.from_vec_with_type inp.public_key_vec inp.public_key_type) = some r) :
    (payMain ext inp)[2]? = some (OutVal.bool (ext.summary r == "pass")) ∧
    (((payMain ext inp)[2]? = some (OutVal.bool true)) ↔
      ext.summary r = "pass") := by
  have h2 : (payMain ext inp)[2]? = some (OutVal.bool (ext.summary r == "pass")) := by
    cases hc : regexCaptures payRegex (utf8Lossy inp.raw_email) with
    | none => rw [payMain_no_match ext inp email r hp hv hc]; rfl
    | some cp => rw [payMain_match ext inp email r cp hp hv hc]; rfl
  refine ⟨h2, ?_⟩
  rw [h2]
  simp

/-- C2 (witness): a concrete successful run with a passing summary. -/
theorem C2_result_reducer_w :
    (payMain trivCollab inpEmpty)[2]? =
      some (OutVal.bool (trivCollab.summary () == "pass")) ∧
    (((payMain trivCollab inpEmpty)[2]? = some (OutVal.bool true)) ↔
      trivCollab.summary () = "pass") :=
  C2_result_reducer trivCollab inpEmpty () () rfl rfl

/-- C3 (amended): on the golden body the three committed capture strings
are `J`, `100.00`, `ABC123`: the lazy payee group captures a single
character, not the whole first name, because the following `\s*.*?` can
absorb the rest. -/
theorem C3_golden {Mail Key R : Type} (ext : Collab Mail Key R)
    (inp : RawInput) (email : Mail) (r : R)
    (hp : ext.parse_mail inp.raw_email = some email)
    (hv : ext.verify_email_with_public_key inp.from_domain email
      (ext.from_vec_with_type inp.public_key_vec inp.public_key_type) = some r)
    (he : inp.raw_email = strBytes bodyGolden) :
    (payMain ext inp).drop 3 =
      [OutVal.str "J".data, OutVal.str "100.00".data, OutVal.str "ABC123".data] := by
  have hc : regexCaptures payRegex (utf8Lossy inp.raw_email) =
      some [(3, "ABC123".data), (2, "100.00".data), (1, "J".data)] := by
    rw [he]
    decide
  rw [payMain_match ext inp email r _ hp hv hc]
  rfl

/-- C3 (counterexample): on a concrete run over the golden body the
committed captures are not `Jane`, `100.00`, `ABC123`. -/
theorem C3_golden_cex :
    (payMain trivCollab inpGolden).drop 3 ≠
      [OutVal.str "Jane".data, OutVal.str "100.00".data, OutVal.str "ABC123".data] := by
  decide

/-- C3 (witness): a concrete run over the golden body committing `J`,
`100.00`, `ABC123`. -/
theorem C3_golden_w :
    (payMain trivCollab inpGolden).drop 3 =
      [OutVal.str "J".data, OutVal.str "100.00".data, OutVal.str "ABC123".data] :=
  C3_golden trivCollab inpGolden () () rfl rfl rfl

/-- C4: when mail parsing fails the run aborts with zero committed
values. -/
theorem C4_parse_fail_aborts {Mail Key R : Type} (ext : Collab Mail Key R)
    (inp : RawInput) (hp : ext.parse_mail inp.raw_email = none) :
    payMain ext inp = [] :=
  payMain_parse_none ext inp hp

/-- C4 (witness): a concrete run whose mail parsing fails commits
nothing. -/
theorem C4_parse_fail_aborts_w : payMain noParseCollab inpEmpty = [] :=
  C4_parse_fail_aborts noParseCollab inpEmpty rfl

/-- C5: a completed run whose decoded email text has no pattern match
commits exactly 3 values. -/
theorem C5_no_match_three {Mail Key R : Type} (ext : Collab Mail Key R)
    (inp : RawInput) (email : Mail) (r : R)
    (hp : ext.parse_mail inp.raw_email = some email)
    (hv : ext.verify_email_with_public_key inp.from_domain email
      (ext.from_vec_with_type inp.public_key_vec inp.public_key_type) = some r)
    (hc : regexCaptures payRegex (utf8Lossy inp.raw_email) = none) :
    (payMain ext inp).length = 3 := by
  rw [payMain_no_match ext inp email r hp hv hc]
  rfl

/-- C5 (witness): a concrete completed run with no pattern match commits
exactly 3 values. -/
theorem C5_no_match_three_w : (payMain trivCollab inpEmpty).length = 3 :=
  C5_no_match_three trivCollab inpEmpty () () rfl rfl (by decide)

/-- C6: a completed run whose decoded email text matches the pattern
commits exactly the three capture texts after the boolean, in group order,
each defaulting to the empty string for a non-participating group. -/
theorem C6_match_six {Mail Key R : Type} (ext : Collab Mail Key R)
    (inp : RawInput) (email : Mail) (r : R) (cp : Caps)
    (hp : ext.parse_mail inp.raw_email = some email)
    (hv : ext.verify_email_with_public_key inp.from_domain email
      (ext.from_vec_with_type inp.public_key_vec inp.public_key_type) = some r)
    (hc : regexCaptures payRegex (utf8Lossy inp.raw_email) = some cp) :
    payMain ext inp = [OutVal.bytes (sha256 (strBytes inp.from_domain)),
                       OutVal.bytes (sha256 inp.public_key_vec),
                       OutVal.bool (ext.summary r == "pass"),
                       OutVal.str (capStr cp 1), OutVal.str (capStr cp 2),
                       OutVal.str (capStr cp 3)] :=
  payMain_match ext inp email r cp hp hv hc

/-- C6 (witness): a concrete matching run commits the two fingerprints,
the boolean, and the three capture texts. -/
theorem C6_match_six_w :
    payMain trivCollab inpShort =
      [OutVal.bytes (sha256 (strBytes inpShort.from_domain)),
       OutVal.bytes (sha256 inpShort.public_key_vec),
       OutVal.bool (trivCollab.summary () == "pass"),
       OutVal.str (capStr [(3, "A".data), (2, "1".data), (1, "J".data)] 1),
       OutVal.str (capStr [(3, "A".data), (2, "1".data), (1, "J".data)] 2),
       OutVal.str (capStr [(3, "A".data), (2, "1".data), (1, "J".data)] 3)] :=
  C6_match_six trivCollab inpShort () () [(3, "A".data), (2, "1".data), (1, "J".data)]
    rfl rfl (by decide)

/-- C7: the committed output sequence is a function of the four inputs —
two runs with identical inputs commit identical sequences. -/
theorem C7_deterministic {Mail Key R : Type} (ext : Collab Mail Key R)
    (inp1 inp2 : RawInput)
    (h1 : inp1.from_domain = inp2.from_domain)
    (h2 : inp1.raw_email = inp2.raw_email)
    (h3 : inp1.public_key_type = inp2.public_key_type)
    (h4 : inp1.public_key_vec = inp2.public_key_vec) :
    payMain ext inp1 = payMain ext inp2 := by
  have he : inp1 = inp2 := by
    cases inp1
    cases inp2
    simp_all
  rw [he]

/-- C7 (witness): a concrete pair of identical inputs. -/
theorem C7_deterministic_w : payMain trivCollab inpEmpty = payMain trivCollab inpEmpty :=
  C7_deterministic trivCollab inpEmpty inpEmpty rfl rfl rfl rfl

/-- C8 (amended): among runs whose verifier invocation succeeds, the
committed extracted fields depend only on the raw email bytes — two such
runs with the same raw email but different domain, key type or key bytes
commit the same trailing field values. -/
theorem C8_extractor_independent {Mail Key R : Type} (ext : Collab Mail Key R)
    (inp1 inp2 : RawInput) (email1 email2 : Mail) (r1 r2 : R)
    (he : inp1.raw_email = inp2.raw_email)
    (hp1 : ext.parse_mail inp1.raw_email = some email1)
    (hp2 : ext.parse_mail inp2.raw_email = some email2)
    (hv1 : ext.verify_email_with_public_key inp1.from_domain email1
      (ext.from_vec_with_type inp1.public_key_vec inp1.public_key_type) = some r1)
    (hv2 : ext.verify_email_with_public_key inp2.from_domain email2
      (ext.from_vec_with_type inp2.public_key_vec inp2.public_key_type) = some r2) :
    (payMain ext inp1).drop 3 = (payMain ext inp2).drop 3 := by
  have hc2 : regexCaptures payRegex (utf8Lossy inp2.raw_email) =
      regexCaptures payRegex (utf8Lossy inp1.raw_email) := by rw [he]
  have d3 : ∀ (a b c : OutVal) (l : List OutVal), (a :: b :: c :: l).drop 3 = l :=
    fun _ _ _ _ => rfl
  cases hc : regexCaptures payRegex (utf8Lossy inp1.raw_email) with
  | none =>
    rw [payMain_no_match ext inp1 email1 r1 hp1 hv1 hc,
        payMain_no_match ext inp2 email2 r2 hp2 hv2 (hc2.trans hc), d3, d3]
  | some cp =>
    rw [payMain_match ext inp1 email1 r1 cp hp1 hv1 hc,
        payMain_match ext inp2 email2 r2 cp hp2 hv2 (hc2.trans hc), d3, d3]

/-- C8 (counterexample): with a verifier that errors on one of two
domains, two runs over the same raw email commit different field values —
the extraction step is skipped when the verifier invocation aborts, so it
does not run independently of the verification branch. -/
theorem C8_extractor_independent_cex :
    inpShort.raw_email = inpShortB.raw_email ∧
    (payMain domCollab inpShort).drop 3 ≠ (payMain domCollab inpShortB).drop 3 := by
  decide

/-- C8 (witness): two completed concrete runs over the same raw email with
different domains, key types and keys commit identical field values. -/
theorem C8_extractor_independent_w :
    (payMain trivCollab inpShort).drop 3 = (payMain trivCollab inpShortB).drop 3 :=
  C8_extractor_independent trivCollab inpShort inpShortB () () () ()
    rfl rfl rfl rfl rfl

/-- C9: a run whose verifier invocation errors aborts after committing
exactly the two fingerprints — no boolean and no fields. -/
theorem C9_verify_error_two {Mail Key R : Type} (ext : Collab Mail Key R)
    (inp : RawInput) (email : Mail)
    (hp : ext.parse_mail inp.raw_email = some email)
    (hv : ext.verify_email_with_public_key inp.from_domain email
      (ext.from_vec_with_type inp.public_key_vec inp.public_key_type) = none) :
    payMain ext inp = [OutVal.bytes (sha256 (strBytes inp.from_domain)),
                       OutVal.bytes (sha256 inp.public_key_vec)] :=
  payMain_verify_none ext inp email hp hv

/-- C9 (witness): a concrete run whose verifier invocation errors leaves
exactly the two fingerprints. -/
theorem C9_verify_error_two_w :
    payMain domCollab inpShortB =
      [OutVal.bytes (sha256 (strBytes inpShortB.from_domain)),
       OutVal.bytes (sha256 inpShortB.public_key_vec)] :=
  C9_verify_error_two domCollab inpShortB () rfl (by decide)

/-- C10: whenever the pattern matches, all three capture groups
participate and capture at least one character, so no committed field is
ever the empty string. -/
theorem C10_nonempty : ∀ (s : List Char) (cp : Caps),
    regexCaptures payRegex s = some cp →
    capStr cp 1 ≠ [] ∧ capStr cp 2 ≠ [] ∧ capStr cp 3 ≠ [] := by
  intro s cp h
  unfold regexCaptures at h
  obtain ⟨t, s1, M⟩ := reSearch_sound _ payRegex s cp h
  obtain ⟨t1, t2, t3, rfl, n1, n2, n3⟩ := payRegex_caps M
  exact ⟨n1, n2, n3⟩

/-- C10 (witness): the golden body's captures are all nonempty. -/
theorem C10_nonempty_w :
    capStr [(3, "ABC123".data), (2, "100.00".data), (1, "J".data)] 1 ≠ [] ∧
    capStr [(3, "ABC123".data), (2, "100.00".data), (1, "J".data)] 2 ≠ [] ∧
    capStr [(3, "ABC123".data), (2, "100.00".data), (1, "J".data)] 3 ≠ [] :=
  C10_nonempty bodyGolden.data [(3, "ABC123".data), (2, "100.00".data), (1, "J".data)]
    (by decide)
